import Mathlib

/-!
Verification of the payroll rule engine of the AttendaceLog repository
(`logic_manager.py`), shallowly embedded in Lean 4.

Modelling conventions:
* Calendar dates are values of `Date` (year/month/day, proleptic Gregorian
  calendar as implemented by Python's `datetime.date`).  Internally days are
  identified by a linear day number (`toRata`), and Python's
  `date.weekday()` (Monday = 0) is `pyWeekday` on day numbers.  The
  `YYYY-MM-DD` strings that the source uses as dictionary keys are in
  bijection with day numbers, so logs and holidays are keyed by day number.
* Money amounts are rationals (`ℚ`); Python's binary floats are idealised
  as exact rational arithmetic, and Python's `round(x, 2)` is `round2`
  (round half to even at two decimals).
* Python `datetime` exceptions (`ValueError` from `date.replace` with an
  out-of-range day) are modelled by `Option`: `none` is a raised exception.
* The attendance-log table (`sqlite`) is a partial map from day numbers to
  `LogEntry`; `time_in` strings that do not parse as `HH:MM:SS` are the
  `TimeIn.malformed` constructor, valid ones are `TimeIn.hms s` with `s`
  seconds after midnight.  The holiday table is a partial map from day
  numbers to the description text.
* The numeric detail lines of the report's summary string (pure `%.2f`
  presentation) are omitted from the embedding; the configuration-missing
  summary of the zero-policy path is modelled verbatim.
-/

namespace AttendanceLog

/-! ## Calendar model (Python `datetime.date`) -/

/-- Gregorian leap-year test, as in the proleptic calendar used by
`datetime.date`. -/
def isLeap (y : Nat) : Bool :=
  (y % 4 == 0 && y % 100 != 0) || (y % 400 == 0)

/-- Number of days in month `m` (1-12) of year `y`; 0 for invalid months. -/
def dim (y : Nat) (m : Nat) : Nat :=
  match m with
  | 1 => 31
  | 2 => if isLeap y then 29 else 28
  | 3 => 31
  | 4 => 30
  | 5 => 31
  | 6 => 30
  | 7 => 31
  | 8 => 31
  | 9 => 30
  | 10 => 31
  | 11 => 30
  | 12 => 31
  | _ => 0

/-- Days in the months of year `y` strictly before month `m + 1`;
`monthDaysBefore y m = dim y 1 + ... + dim y m` with `dim y 0 = 0`. -/
def monthDaysBefore (y : Nat) : Nat → Nat
  | 0 => 0
  | m + 1 => monthDaysBefore y m + dim y (m + 1)

/-- Number of leap years in `[0, y)`. -/
def leaps0 (y : Nat) : Nat :=
  (y + 3) / 4 - (y + 99) / 100 + (y + 399) / 400

/-- Linear day number of the calendar day `y-m-d`: consecutive calendar
days map to consecutive numbers. -/
def toRata (y m d : Nat) : Nat :=
  365 * y + leaps0 y + monthDaysBefore y (m - 1) + (d - 1)

/-- Python's `date.weekday()`: Monday = 0, ..., Sunday = 6. -/
def pyWeekday (r : Nat) : Nat := (r + 5) % 7

/-- `logic_manager.is_weekend`, on day numbers: Saturday (5) or Sunday (6). -/
def is_weekend (r : Nat) : Bool :=
  pyWeekday r == 5 || pyWeekday r == 6

/-- A calendar date, as Python's `datetime.date`. -/
structure Date where
  y : Nat
  m : Nat
  d : Nat
deriving DecidableEq

/-- The day number of a date. -/
def Date.toR (dt : Date) : Nat := toRata dt.y dt.m dt.d

/-- A date that `datetime.date` accepts (the model does not impose
Python's 1..9999 year bound, treating it as a platform limit). -/
def Date.Valid (dt : Date) : Prop :=
  1 ≤ dt.y ∧ 1 ≤ dt.m ∧ dt.m ≤ 12 ∧ 1 ≤ dt.d ∧ dt.d ≤ dim dt.y dt.m

instance (dt : Date) : Decidable dt.Valid := by
  unfold Date.Valid; infer_instance

/-- Year/month following month `m` of year `y`. -/
def nextYM (y m : Nat) : Nat × Nat :=
  if m = 12 then (y + 1, 1) else (y, m + 1)

/-- Year/month preceding month `m` of year `y`. -/
def prevYM (y m : Nat) : Nat × Nat :=
  if m = 1 then (y - 1, 12) else (y, m - 1)

/-- `date.replace(day := d)` for month `m` of year `y`: raises
(`none`) when the day is out of range for that month. -/
def mkDay (y m d : Nat) : Option Date :=
  if 1 ≤ d ∧ d ≤ dim y m then some ⟨y, m, d⟩ else none

/-- Zero-padded 2-digit rendering. -/
def pad2 (n : Nat) : String :=
  if n < 10 then "0" ++ toString n else toString n

/-- Zero-padded 4-digit rendering. -/
def pad4 (n : Nat) : String :=
  if n < 10 then "000" ++ toString n
  else if n < 100 then "00" ++ toString n
  else if n < 1000 then "0" ++ toString n
  else toString n

/-- `strftime('%Y-%m-%d')`. -/
def dateStr (dt : Date) : String :=
  pad4 dt.y ++ "-" ++ pad2 dt.m ++ "-" ++ pad2 dt.d

/-! ## Data model -/

/-- A stored `time_in` value: a parsed `HH:MM:SS` time (seconds after
midnight) or a string that `strptime` rejects. -/
inductive TimeIn where
  | hms (secs : Nat)
  | malformed
deriving DecidableEq

/-- One row of the attendance-log table. -/
structure LogEntry where
  timeIn : Option TimeIn
  timeOut : Option Nat
deriving DecidableEq

/-- The settings table, already parsed to numbers (`None` = key absent). -/
structure Settings where
  monthStartDay : Option Nat
  monthEndDay : Option Nat
  fixedMonthlySalary : Option ℚ
  hourlyRate : Option ℚ
deriving DecidableEq

/-- One entry of the report's `details` list. -/
structure DayRec where
  date : Nat
  status : String
  timeIn : Option TimeIn
  timeOut : Option Nat
  pay : ℚ
  reason : String
deriving DecidableEq

/-- The dictionary returned by `calculate_monthly_salary`.  Besides the
keys of the Python dict (`total_salary`, `details`, `summary`,
`period_start`, `period_end`) the model exposes the aggregation counters
that the source computes as local variables (`late_count`,
`late_deduction_total`, `actual_working_saturdays`, `saturday_holiday`,
`one_paid_day_off_applied`, `saturday_deduction`); on the zero-policy
path these extra fields are zero and the period fields carry the already
resolved period. -/
structure Report where
  totalSalary : ℚ
  details : List DayRec
  summary : String
  periodStart : String
  periodEnd : String
  lateCount : Nat
  lateDeductionTotal : ℚ
  workedSaturdays : Nat
  saturdayHoliday : Bool
  graceApplied : Bool
  saturdayDeduction : ℚ
deriving DecidableEq

/-! ## Numeric helpers

The engine's arithmetic is performed by kernel-reducible wrappers around
`Rat.divInt` (the library's `Rat.add` etc. are `@[irreducible]`, which
stops `decide`-style evaluation); each wrapper is proved equal to the
corresponding field operation on `ℚ` below. -/

/-- Addition on `ℚ` (equals `a + b`). -/
def qadd (a b : ℚ) : ℚ :=
  Rat.divInt (a.num * b.den + b.num * a.den) ((a.den : ℤ) * b.den)

/-- Subtraction on `ℚ` (equals `a - b`). -/
def qsub (a b : ℚ) : ℚ :=
  Rat.divInt (a.num * b.den - b.num * a.den) ((a.den : ℤ) * b.den)

/-- Multiplication on `ℚ` (equals `a * b`). -/
def qmul (a b : ℚ) : ℚ :=
  Rat.divInt (a.num * b.num) ((a.den : ℤ) * b.den)

/-- Division on `ℚ` (equals `a / b`, with `qdiv a 0 = 0`). -/
def qdiv (a b : ℚ) : ℚ :=
  Rat.divInt (a.num * b.den) ((a.den : ℤ) * b.num)

/-- The strict-order test on `ℚ` (equals `a < b`). -/
def qlt (a b : ℚ) : Bool :=
  decide (a.num * b.den < b.num * a.den)

/-- Python's `round(x, 2)`: round half to even at two decimals,
computed on the numerator and denominator. -/
def round2 (q : ℚ) : ℚ :=
  let a : ℤ := q.num * 100
  let b : ℤ := (q.den : ℤ)
  let n : ℤ := Int.fdiv a b
  let r : ℤ := a - n * b
  let m : ℤ :=
    if 2 * r < b then n
    else if b < 2 * r then n + 1
    else if n % 2 = 0 then n else n + 1
  Rat.divInt m 100

/-- Whether `pat` is a prefix of `s`, on character lists. -/
def isPrefixList : List Char → List Char → Bool
  | [], _ => true
  | _ :: _, [] => false
  | a :: as, b :: bs => a == b && isPrefixList as bs

/-- Whether `pat` occurs in `s`, on character lists. -/
def containsList (pat : List Char) : List Char → Bool
  | [] => isPrefixList pat []
  | c :: rest => isPrefixList pat (c :: rest) || containsList pat rest

/-- Whether `pat` occurs in `s` (Python's `pat in s`). -/
def containsSub (s pat : String) : Bool :=
  containsList pat.data s.data

/-! ## Period resolution (`get_start_end_dates_for_period`) -/

/-- `logic_manager.get_start_end_dates_for_period`: resolves the pay
period for the reference date `today` from the configured roll-over days
(defaults 28 and 27); `none` models the `ValueError` that
`date.replace` raises when a configured day does not exist in the
target month. -/
def get_start_end_dates_for_period (st : Settings) (today : Date) :
    Option (Date × Date) :=
  let s := st.monthStartDay.getD 28
  let e := st.monthEndDay.getD 27
  if s ≤ today.d then
    match mkDay today.y today.m s with
    | none => none
    | some sd =>
      let nm := nextYM today.y today.m
      match mkDay nm.1 nm.2 e with
      | none => none
      | some ed => some (sd, ed)
  else
    match mkDay today.y today.m e with
    | none => none
    | some ed =>
      let pm := prevYM today.y today.m
      match mkDay pm.1 pm.2 s with
      | none => none
      | some sd => some (sd, ed)

/-! ## Daily classification (`get_daily_pay_and_penalties` and the loop body) -/

/-- `logic_manager.get_daily_pay_and_penalties`: daily pay contribution,
late-instance flag and penalty reason for one day's log. -/
def get_daily_pay_and_penalties (log : Option LogEntry) (fspd rate : ℚ) :
    ℚ × Bool × String :=
  match log with
  | none => (0, false, "Absent (No IN Time)")
  | some l =>
    match l.timeIn with
    | none => (0, false, "Absent (No IN Time)")
    | some .malformed => (0, false, "Invalid IN Time Format")
    | some (.hms t) =>
      if 43200 ≤ t then (qdiv fspd 2, false, "Half Day (Logged IN after 12:00 PM)")
      else
        let res : ℚ × Bool × String :=
          if 39600 ≤ t then (qsub fspd (qmul rate 2), true, "Late (IN after 11 AM) - 2 hours cut")
          else if 36000 ≤ t then (qsub fspd (qmul rate 1), true, "Late (IN after 10 AM) - 1 hour cut")
          else if 33300 < t then (fspd, true, "Late (IN after 09:15 AM)")
          else (fspd, false, "On Time")
        (if qlt res.1 0 then 0 else res.1, res.2.1, res.2.2)

/-- Intermediate per-day state of the loop body of
`calculate_monthly_salary` (the local variables `day_status`,
`daily_contribution`, `is_late_instance`, `late_reason` together with the
increments to the Saturday counters). -/
structure DS where
  status : String
  contrib : ℚ
  late : Bool
  reason : String
  satWorked : Bool
  satHol : Bool

/-- Lines 276-290 of `logic_manager.py`: Sunday / Saturday handling
(default status `"Working Day"` otherwise). -/
def weekendStep (fspd rate : ℚ) (log : Option LogEntry) (r : Nat) : DS :=
  if pyWeekday r = 6 then
    ⟨"Paid Day Off (Sunday)", fspd, false, "", false, false⟩
  else if pyWeekday r = 5 then
    match log with
    | some l =>
      if l.timeIn.isSome then
        let dp := get_daily_pay_and_penalties (some l) fspd rate
        ⟨"Working Saturday", dp.1, dp.2.1, dp.2.2, true, false⟩
      else ⟨"Unlogged Saturday (Pending Rule 2)", 0, false, "", false, false⟩
    | none => ⟨"Unlogged Saturday (Pending Rule 2)", 0, false, "", false, false⟩
  else ⟨"Working Day", 0, false, "", false, false⟩

/-- Lines 292-298 of `logic_manager.py`: the public-holiday override
(skipped when the day was already classified as a Sunday). -/
def holidayStep (fspd : ℚ) (hdesc : Option String) (r : Nat) (a : DS) : DS :=
  match hdesc with
  | some desc =>
    if a.status ≠ "Paid Day Off (Sunday)" then
      if pyWeekday r = 5 then
        { a with status := "Holiday Saturday", contrib := fspd, satHol := true }
      else
        { a with status := "Paid Day Off (Public Holiday: " ++ desc ++ ")", contrib := fspd }
    else a
  | none => a

/-- Lines 300-315 of `logic_manager.py`: attendance rules for days still
classified `"Working Day"`. -/
def workStep (fspd rate : ℚ) (log : Option LogEntry) (a : DS) : DS :=
  if a.status = "Working Day" then
    let dp := get_daily_pay_and_penalties log fspd rate
    let st :=
      if (match log with | none => true | some l => l.timeIn.isNone) then "Absent"
      else if containsSub dp.2.2 "Half Day" then "Half Day"
      else if containsSub dp.2.2 "Late" then "Working Day (Late)"
      else "Working Day (On Time)"
    { a with status := st, contrib := dp.1, late := dp.2.1, reason := dp.2.2 }
  else a

/-- The whole loop body for one day. -/
def dayStep (fspd rate : ℚ) (logs : Nat → Option LogEntry)
    (hols : Nat → Option String) (r : Nat) : DS :=
  workStep fspd rate (logs r) (holidayStep fspd (hols r) r (weekendStep fspd rate (logs r) r))

/-- The breakdown entry appended for one day. -/
def mkRec (log : Option LogEntry) (r : Nat) (ds : DS) : DayRec :=
  ⟨r, ds.status, log.bind LogEntry.timeIn, log.bind LogEntry.timeOut, round2 ds.contrib, ds.reason⟩

/-- Accumulated result of the per-day pass. -/
structure P1 where
  total : ℚ
  breakdown : List DayRec
  lateCount : Nat
  workedSats : Nat
  satHol : Bool

/-- The per-day pass of `calculate_monthly_salary` over a list of day
numbers: runs the loop body once per day, in order, accumulating the
running total and the counters. -/
def phase1 (fspd rate : ℚ) (logs : Nat → Option LogEntry)
    (hols : Nat → Option String) : List Nat → P1
  | [] => ⟨0, [], 0, 0, false⟩
  | r :: rest =>
    let d := dayStep fspd rate logs hols r
    let p := phase1 fspd rate logs hols rest
    ⟨qadd d.contrib p.total,
     mkRec (logs r) r d :: p.breakdown,
     (if d.late then 1 else 0) + p.lateCount,
     (if d.satWorked then 1 else 0) + p.workedSats,
     d.satHol || p.satHol⟩

/-- The inclusive range of day numbers `[a, b]`, in ascending order. -/
def ratRange (a b : Nat) : List Nat :=
  (List.range (b + 1 - a)).map (a + ·)

/-- The candidate test of the grace scan (line 353 of
`logic_manager.py`): an `"Absent"` entry whose date is neither a weekend
day nor a public holiday. -/
def grCond (hols : Nat → Option String) (x : DayRec) : Bool :=
  x.status == "Absent" && !(is_weekend x.date) && (hols x.date).isNone

/-- The rewritten breakdown entry for the auto-granted paid day off. -/
def grConv (fspd : ℚ) (x : DayRec) : DayRec :=
  { x with status := "Paid Day Off (Auto Granted)", reason := "", pay := round2 fspd }

/-- Lines 349-362 of `logic_manager.py`: convert the first breakdown
entry that is an `"Absent"` non-weekend non-holiday day into the
auto-granted paid day off; the `Bool` is `one_paid_day_off_applied`. -/
def graceAdjust (fspd : ℚ) (hols : Nat → Option String) :
    List DayRec → List DayRec × Bool
  | [] => ([], false)
  | x :: rest =>
    if grCond hols x then (grConv fspd x :: rest, true)
    else
      let t := graceAdjust fspd hols rest
      (x :: t.1, t.2)

/-- The period header line of the report summary (the source's numeric
detail lines are `%.2f` presentation and are omitted from the model). -/
def mkSummary (sd ed : Date) : String :=
  "Salary calculated for period: " ++ dateStr sd ++ " to " ++ dateStr ed ++ "\n"

/-- The dictionary returned on the zero-policy short-circuit (lines
243-248 of `logic_manager.py`; the Python dict carries only the first
three keys, the remaining model fields are inert zeroes). -/
def zeroReport (sd ed : Date) : Report :=
  { totalSalary := 0, details := [],
    summary := "Please set Fixed Monthly Salary and Hourly Rate in settings.",
    periodStart := dateStr sd, periodEnd := dateStr ed,
    lateCount := 0, lateDeductionTotal := 0, workedSaturdays := 0,
    saturdayHoliday := false, graceApplied := false, saturdayDeduction := 0 }

/-- The report assembled on the normal path: per-day pass over the
resolved period, then the cumulative late deduction, the grace day-off
conversion and the Saturday-quota branch, in the source's order. -/
def mainReport (st : Settings) (logs : Nat → Option LogEntry)
    (hols : Nat → Option String) (sd ed : Date) : Report :=
  let fixed := st.fixedMonthlySalary.getD 0
  let rate := st.hourlyRate.getD 0
  let fspd := qdiv fixed 30
  let p := phase1 fspd rate logs hols (ratRange sd.toR ed.toR)
  let lateDed : ℚ := qmul (((p.lateCount / 3 : Nat)) : ℚ) fspd
  let g := graceAdjust fspd hols p.breakdown
  let t2 : ℚ := if g.2 then qadd (qsub p.total lateDed) fspd else qsub p.total lateDed
  let satDed : ℚ :=
    if p.workedSats < 2 ∧ p.satHol = false ∧ g.2 = true
    then qmul ((((2 - p.workedSats)) : Nat) : ℚ) fspd else 0
  let t3 : ℚ :=
    if p.workedSats < 2 ∧ p.satHol = false ∧ g.2 = true
    then qsub t2 satDed else qadd t2 fspd
  { totalSalary := round2 t3, details := g.1, summary := mkSummary sd ed,
    periodStart := dateStr sd, periodEnd := dateStr ed,
    lateCount := p.lateCount, lateDeductionTotal := lateDed,
    workedSaturdays := p.workedSats, saturdayHoliday := p.satHol,
    graceApplied := g.2, saturdayDeduction := satDed }

/-- `logic_manager.calculate_monthly_salary`: the full engine.  `none`
models an uncaught exception (a `ValueError` escaping from period
resolution). -/
def calculate_monthly_salary (st : Settings) (logs : Nat → Option LogEntry)
    (hols : Nat → Option String) (today : Date) : Option Report :=
  match get_start_end_dates_for_period st today with
  | none => none
  | some (sd, ed) =>
    if st.fixedMonthlySalary.getD 0 = 0 ∨ st.hourlyRate.getD 0 = 0 then
      some (zeroReport sd ed)
    else
      some (mainReport st logs hols sd ed)

/-! ## The month/year-selecting engine variant (spec-modelled) -/

/-- The report of the full engine variant, with the additional
`gross_salary` and `total_salary_until_today` figures read by
`main_app.py`. -/
structure FullReport where
  totalSalary : ℚ
  grossSalary : ℚ
  totalSalaryUntilToday : Option ℚ
  details : List DayRec
  summary : String

/-- Modelled from the spec: the repository's GUI (`main_app.py`) calls
`calculate_monthly_salary(report_month=..., report_year=...)` and reads
`gross_salary` and `total_salary_until_today` from the returned report,
but that variant of the engine is not among the provided sources (the
`logic_manager.py` provided takes no arguments and returns neither
figure).  Following §4.3/§6 of the spec: the operation accepts optional
month/year arguments; when none is given the period is resolved against
today and the report additionally includes `totalSalaryUntilToday`
(Phase-1 contributions accumulated only through the current date);
`grossSalary` is the undeducted day count times `fixedSalaryPerDay`,
minus one day when the resolved period spans a 31-day month and lies
fully in the past. -/
def calculate_monthly_salary_full (st : Settings) (logs : Nat → Option LogEntry)
    (hols : Nat → Option String) (today : Date)
    (reportMonth reportYear : Option Nat) : Option FullReport :=
  let refDate : Date :=
    match reportMonth, reportYear with
    | some m, some y => ⟨y, m, st.monthStartDay.getD 28⟩
    | some m, none => ⟨today.y, m, st.monthStartDay.getD 28⟩
    | none, some y => ⟨y, today.m, st.monthStartDay.getD 28⟩
    | none, none => today
  match get_start_end_dates_for_period st refDate,
        calculate_monthly_salary st logs hols refDate with
  | some (sd, ed), some r =>
    let fixed := st.fixedMonthlySalary.getD 0
    let rate := st.hourlyRate.getD 0
    let fspd := qdiv fixed 30
    let n := (ratRange sd.toR ed.toR).length
    let gross : ℚ :=
      qsub (qmul (n : ℚ) fspd)
        (if (dim sd.y sd.m = 31 ∨ dim ed.y ed.m = 31) ∧ ed.toR < today.toR
         then fspd else 0)
    let untilToday : Option ℚ :=
      match reportMonth, reportYear with
      | none, none =>
        some (phase1 fspd rate logs hols
          ((ratRange sd.toR ed.toR).filter (fun x => x ≤ today.toR))).total
      | _, _ => none
    some ⟨r.totalSalary, gross, untilToday, r.details, r.summary⟩
  | _, _ => none

/-- Invariant of every breakdown entry produced by the per-day pass: an
`"Absent"` entry is a non-weekend, non-holiday day with zero
contribution, and the auto-granted status never appears. -/
def GoodRec (hols : Nat → Option String) (x : DayRec) : Prop :=
  (x.status = "Absent" →
    is_weekend x.date = false ∧ hols x.date = none ∧ x.pay = 0) ∧
  x.status ≠ "Paid Day Off (Auto Granted)"

/-! ## Concrete scenario inputs -/

/-- An empty attendance-log table. -/
def logsNone : Nat → Option LogEntry := fun _ => none

/-- An empty holiday table. -/
def holsNone : Nat → Option String := fun _ => none

/-- Scenario A policy: salary 60000, rate 250, period days 28 and 27. -/
def stA : Settings := ⟨some 28, some 27, some 60000, some 250⟩

/-- Scenario A: the six weekday dates logged at 10:30 instead of
09:00. -/
def lateSetA : List Nat :=
  [toRata 2025 7 28, toRata 2025 7 30, toRata 2025 8 1,
   toRata 2025 8 5, toRata 2025 8 7, toRata 2025 8 8]

/-- Scenario A logs: every weekday of the period 2025-07-28 to
2025-08-27 logged in at 09:00 (six dates at 10:30), out at 17:00. -/
def logsA : Nat → Option LogEntry := fun r =>
  if toRata 2025 7 28 ≤ r ∧ r ≤ toRata 2025 8 27 ∧ pyWeekday r < 5 then
    some ⟨some (.hms (if r ∈ lateSetA then 37800 else 32400)), some 61200⟩
  else none

/-- Scenario A reference date (2025-08-04 resolves the period
2025-07-28 to 2025-08-27). -/
def todayA : Date := ⟨2025, 8, 4⟩

/-- A policy resolving a two-day period: start day 31, end day 1. -/
def stTiny : Settings := ⟨some 31, some 1, some 60000, some 250⟩

/-- Reference date for the two- and three-day periods (2025-01-31). -/
def todayTiny : Date := ⟨2025, 1, 31⟩

/-- A single on-time log on Friday 2025-01-31. -/
def logsFri : Nat → Option LogEntry := fun r =>
  if r = toRata 2025 1 31 then some ⟨some (.hms 32400), some 61200⟩ else none

/-- A policy resolving the three-day period 2025-01-31 to 2025-02-02:
start day 31, end day 2. -/
def stThree : Settings := ⟨some 31, some 2, some 60000, some 250⟩

/-- Holidays on Saturday 2025-02-01 and Sunday 2025-02-02. -/
def holsWknd : Nat → Option String := fun r =>
  if r = toRata 2025 2 1 then some "H1"
  else if r = toRata 2025 2 2 then some "H2" else none

/-- A single on-time log on the holiday Saturday 2025-02-01. -/
def logsSat : Nat → Option LogEntry := fun r =>
  if r = toRata 2025 2 1 then some ⟨some (.hms 32400), some 46800⟩ else none

/-- A policy whose end day 31 does not exist in April: with reference
date 2025-03-29 the resolver raises. -/
def stBad : Settings := ⟨some 28, some 31, some 60000, some 250⟩

/-- The same out-of-range policy with a zero salary. -/
def stBadZero : Settings := ⟨some 28, some 31, some 0, some 250⟩

/-- Reference date 2025-03-29 (end day 31 lands in 30-day April). -/
def todayBad : Date := ⟨2025, 3, 29⟩

/-- Default roll-over days with a zero salary. -/
def stZero : Settings := ⟨none, none, some 0, some 250⟩

/-- Default roll-over days with the Scenario A rates. -/
def stDflt : Settings := ⟨none, none, some 60000, some 250⟩

/-! ## Calendar lemmas -/

/-- Every calendar month has at least 28 days. -/
theorem dim_ge_28 (y m : Nat) (h1 : 1 ≤ m) (h2 : m ≤ 12) : 28 ≤ dim y m := by
  interval_cases m <;> simp [dim] <;> split <;> omega

/-- Every calendar month has at most 31 days. -/
theorem dim_le_31 (y m : Nat) (h1 : 1 ≤ m) (h2 : m ≤ 12) : dim y m ≤ 31 := by
  interval_cases m <;> simp [dim] <;> split <;> omega

/-- A day of month `m` is never later than day 27 of the following
month. -/
theorem toRata_le_next (y m s e : Nat) (h1 : 1 ≤ m) (h2 : m ≤ 12)
    (hs : s ≤ dim y m) :
    toRata y m s ≤ toRata (nextYM y m).1 (nextYM y m).2 e := by
  interval_cases m <;>
    simp [nextYM, toRata, monthDaysBefore, dim, leaps0] at hs ⊢ <;>
    (try split_ifs at hs ⊢) <;> omega

/-- The month after the month before `m` is `m` again. -/
theorem next_prev (y m : Nat) (hy : 1 ≤ y) (h1 : 1 ≤ m) (h2 : m ≤ 12) :
    nextYM (prevYM y m).1 (prevYM y m).2 = (y, m) := by
  simp only [nextYM, prevYM]
  split_ifs <;> simp_all

/-- Membership in an inclusive day-number range. -/
theorem mem_ratRange (a b x : Nat) : x ∈ ratRange a b ↔ a ≤ x ∧ x ≤ b := by
  simp only [ratRange, List.mem_map, List.mem_range]
  constructor
  · rintro ⟨i, hi, rfl⟩; omega
  · rintro ⟨h1, h2⟩; exact ⟨x - a, by omega, by omega⟩

/-! ## Arithmetic bridge lemmas -/

/-- The executable addition is the field addition. -/
theorem qadd_eq (a b : ℚ) : qadd a b = a + b := by
  have ha : ((a.den : ℚ)) ≠ 0 := Nat.cast_ne_zero.mpr a.den_nz
  have hb : ((b.den : ℚ)) ≠ 0 := Nat.cast_ne_zero.mpr b.den_nz
  rw [qadd, Rat.divInt_eq_div]
  push_cast
  conv_rhs => rw [← Rat.num_div_den a, ← Rat.num_div_den b]
  rw [div_add_div _ _ ha hb]
  ring_nf

/-- The executable subtraction is the field subtraction. -/
theorem qsub_eq (a b : ℚ) : qsub a b = a - b := by
  have ha : ((a.den : ℚ)) ≠ 0 := Nat.cast_ne_zero.mpr a.den_nz
  have hb : ((b.den : ℚ)) ≠ 0 := Nat.cast_ne_zero.mpr b.den_nz
  rw [qsub, Rat.divInt_eq_div]
  push_cast
  conv_rhs => rw [← Rat.num_div_den a, ← Rat.num_div_den b]
  rw [div_sub_div _ _ ha hb]
  ring_nf

/-- The executable multiplication is the field multiplication. -/
theorem qmul_eq (a b : ℚ) : qmul a b = a * b := by
  rw [qmul, Rat.divInt_eq_div]
  push_cast
  conv_rhs => rw [← Rat.num_div_den a, ← Rat.num_div_den b]
  rw [div_mul_div_comm]

/-- The executable division is the field division. -/
theorem qdiv_eq (a b : ℚ) : qdiv a b = a / b := (Rat.div_def' a b).symm

/-- The executable order test is the field order. -/
theorem qlt_iff (a b : ℚ) : qlt a b = true ↔ a < b := by
  rw [qlt, decide_eq_true_iff]
  have hda : (0 : ℚ) < (a.den : ℚ) := by
    exact_mod_cast Nat.pos_of_ne_zero a.den_nz
  have hdb : (0 : ℚ) < (b.den : ℚ) := by
    exact_mod_cast Nat.pos_of_ne_zero b.den_nz
  have h2 : (a < b) ↔ ((a.num : ℚ) / a.den < (b.num : ℚ) / b.den) := by
    rw [Rat.num_div_den, Rat.num_div_den]
  rw [h2, div_lt_div_iff hda hdb]
  exact ⟨fun h => by exact_mod_cast h, fun h => by exact_mod_cast h⟩

/-! ## Per-day pass lemmas -/

/-- Rounding preserves zero. -/
theorem round2_zero : round2 0 = 0 := by decide

/-- The interpolated holiday status differs from every short status
literal. -/
theorem holStr_ne (desc t : String) (ht : t.length < 31) :
    "Paid Day Off (Public Holiday: " ++ desc ++ ")" ≠ t := by
  intro h
  have hlen := congrArg String.length h
  have h30 : ("Paid Day Off (Public Holiday: " : String).length = 30 := rfl
  have h1 : (")" : String).length = 1 := rfl
  rw [String.length_append, String.length_append, h30, h1] at hlen
  omega

/-- A record whose status is neither absent nor auto-granted satisfies
the breakdown invariant. -/
theorem goodRec_of_status (hols : Nat → Option String) (x : DayRec)
    (h1 : x.status ≠ "Absent") (h2 : x.status ≠ "Paid Day Off (Auto Granted)") :
    GoodRec hols x :=
  ⟨fun h => absurd h h1, h2⟩

/-- The previous lemma with the status value given explicitly, so the
string disequalities are closed. -/
theorem goodRec_of_status_eq (hols : Nat → Option String) (x : DayRec)
    (s : String) (hs : x.status = s)
    (h1 : s ≠ "Absent") (h2 : s ≠ "Paid Day Off (Auto Granted)") :
    GoodRec hols x :=
  goodRec_of_status hols x (fun h => h1 (hs.symm.trans h))
    (fun h => h2 (hs.symm.trans h))

/-- An absent record on a non-weekend, non-holiday day with zero
contribution satisfies the breakdown invariant. -/
theorem goodRec_absent (hols : Nat → Option String) (log : Option LogEntry)
    (r : Nat) (ds : DS) (hst : ds.status = "Absent") (hc : ds.contrib = 0)
    (hwk : is_weekend r = false) (hh : hols r = none) :
    GoodRec hols (mkRec log r ds) := by
  refine ⟨fun _ => ⟨hwk, hh, ?_⟩, ?_⟩
  · show round2 ds.contrib = 0
    rw [hc, round2_zero]
  · show ds.status ≠ "Paid Day Off (Auto Granted)"
    rw [hst]; decide

/-- A day that is neither Saturday nor Sunday is not a weekend day. -/
theorem is_weekend_false (r : Nat) (h5 : pyWeekday r ≠ 5) (h6 : pyWeekday r ≠ 6) :
    is_weekend r = false := by
  simp [is_weekend, h5, h6]

/-- The attendance block leaves days already classified untouched. -/
theorem workStep_skip (fspd rate : ℚ) (log : Option LogEntry) (a : DS)
    (h : ¬ a.status = "Working Day") : workStep fspd rate log a = a := by
  unfold workStep; rw [if_neg h]

/-- Every record appended by the loop body satisfies the breakdown
invariant. -/
theorem dayStep_good (fspd rate : ℚ) (logs : Nat → Option LogEntry)
    (hols : Nat → Option String) (r : Nat) :
    GoodRec hols (mkRec (logs r) r (dayStep fspd rate logs hols r)) := by
  rcases hh : hols r with _ | desc
  · have hb : dayStep fspd rate logs hols r
        = workStep fspd rate (logs r) (weekendStep fspd rate (logs r) r) := by
      unfold dayStep; rw [hh]; rfl
    rw [hb]
    by_cases h6 : pyWeekday r = 6
    · have hw : weekendStep fspd rate (logs r) r
          = ⟨"Paid Day Off (Sunday)", fspd, false, "", false, false⟩ := by
        unfold weekendStep; rw [if_pos h6]
      rw [hw, workStep_skip fspd rate (logs r) _
        (show ¬ ("Paid Day Off (Sunday)" : String) = "Working Day" by decide)]
      exact goodRec_of_status_eq hols _ "Paid Day Off (Sunday)" rfl
        (by decide) (by decide)
    · by_cases h5 : pyWeekday r = 5
      · cases hl : logs r with
        | none =>
          have hw : weekendStep fspd rate none r
              = ⟨"Unlogged Saturday (Pending Rule 2)", 0, false, "", false, false⟩ := by
            simp [weekendStep, h5, h6]
          rw [hw, workStep_skip fspd rate none _
            (show ¬ ("Unlogged Saturday (Pending Rule 2)" : String) = "Working Day" by decide)]
          exact goodRec_of_status_eq hols _ "Unlogged Saturday (Pending Rule 2)" rfl
            (by decide) (by decide)
        | some l =>
          by_cases hti : l.timeIn.isSome = true
          · have hw : weekendStep fspd rate (some l) r
                = ⟨"Working Saturday",
                   (get_daily_pay_and_penalties (some l) fspd rate).1,
                   (get_daily_pay_and_penalties (some l) fspd rate).2.1,
                   (get_daily_pay_and_penalties (some l) fspd rate).2.2,
                   true, false⟩ := by
              simp [weekendStep, h5, h6, hti]
            rw [hw, workStep_skip fspd rate (some l) _
              (show ¬ ("Working Saturday" : String) = "Working Day" by decide)]
            exact goodRec_of_status_eq hols _ "Working Saturday" rfl
              (by decide) (by decide)
          · have hw : weekendStep fspd rate (some l) r
                = ⟨"Unlogged Saturday (Pending Rule 2)", 0, false, "", false, false⟩ := by
              simp [weekendStep, h5, h6, hti]
            rw [hw, workStep_skip fspd rate (some l) _
              (show ¬ ("Unlogged Saturday (Pending Rule 2)" : String) = "Working Day" by decide)]
            exact goodRec_of_status_eq hols _ "Unlogged Saturday (Pending Rule 2)" rfl
              (by decide) (by decide)
      · have hw : weekendStep fspd rate (logs r) r
            = ⟨"Working Day", 0, false, "", false, false⟩ := by
          unfold weekendStep; rw [if_neg h6, if_neg h5]
        rw [hw]
        unfold workStep
        rw [if_pos rfl]
        cases hl : logs r with
        | none =>
          exact goodRec_absent hols none r _ rfl rfl (is_weekend_false r h5 h6) hh
        | some l =>
          cases hti : l.timeIn with
          | none =>
            refine goodRec_absent hols (some l) r _ ?_ ?_ (is_weekend_false r h5 h6) hh
            · simp [hti]
            · simp [get_daily_pay_and_penalties, hti]
          | some ti =>
            have hno : (l.timeIn.isNone) = false := by simp [hti]
            simp only [hno]
            rw [if_neg (show ¬ ((false : Bool) = true) by decide)]
            split_ifs with hc1 hc2
            · exact goodRec_of_status_eq hols _ "Half Day" rfl
                (by decide) (by decide)
            · exact goodRec_of_status_eq hols _ "Working Day (Late)" rfl
                (by decide) (by decide)
            · exact goodRec_of_status_eq hols _ "Working Day (On Time)" rfl
                (by decide) (by decide)
  · have hb : dayStep fspd rate logs hols r
        = workStep fspd rate (logs r)
            (holidayStep fspd (some desc) r (weekendStep fspd rate (logs r) r)) := by
      unfold dayStep; rw [hh]
    rw [hb]
    by_cases h6 : pyWeekday r = 6
    · have hw : weekendStep fspd rate (logs r) r
          = ⟨"Paid Day Off (Sunday)", fspd, false, "", false, false⟩ := by
        unfold weekendStep; rw [if_pos h6]
      have hskip : holidayStep fspd (some desc) r (weekendStep fspd rate (logs r) r)
          = weekendStep fspd rate (logs r) r := by
        simp [holidayStep, hw]
      rw [hskip, hw, workStep_skip fspd rate (logs r) _
        (show ¬ ("Paid Day Off (Sunday)" : String) = "Working Day" by decide)]
      exact goodRec_of_status_eq hols _ "Paid Day Off (Sunday)" rfl
        (by decide) (by decide)
    · have hnot : (weekendStep fspd rate (logs r) r).status ≠ "Paid Day Off (Sunday)" := by
        unfold weekendStep
        rw [if_neg h6]
        by_cases h5 : pyWeekday r = 5
        · rw [if_pos h5]
          cases logs r with
          | none =>
            exact show ¬ ("Unlogged Saturday (Pending Rule 2)" : String)
              = "Paid Day Off (Sunday)" by decide
          | some l =>
            by_cases hti : l.timeIn.isSome = true
            · simp only [hti, if_true]
              exact show ¬ ("Working Saturday" : String)
                = "Paid Day Off (Sunday)" by decide
            · simp only [hti, if_false]
              exact show ¬ ("Unlogged Saturday (Pending Rule 2)" : String)
                = "Paid Day Off (Sunday)" by decide
        · rw [if_neg h5]
          exact show ¬ ("Working Day" : String) = "Paid Day Off (Sunday)" by decide
      by_cases h5 : pyWeekday r = 5
      · have hhol : holidayStep fspd (some desc) r (weekendStep fspd rate (logs r) r)
            = { weekendStep fspd rate (logs r) r with
                status := "Holiday Saturday", contrib := fspd, satHol := true } := by
          simp [holidayStep, hnot, h5]
        rw [hhol, workStep_skip fspd rate (logs r) _
          (show ¬ ("Holiday Saturday" : String) = "Working Day" by decide)]
        exact goodRec_of_status_eq hols _ "Holiday Saturday" rfl
          (by decide) (by decide)
      · have hhol : holidayStep fspd (some desc) r (weekendStep fspd rate (logs r) r)
            = { weekendStep fspd rate (logs r) r with
                status := "Paid Day Off (Public Holiday: " ++ desc ++ ")",
                contrib := fspd } := by
          simp [holidayStep, hnot, h5]
        rw [hhol, workStep_skip fspd rate (logs r) _
          (holStr_ne desc "Working Day" (by decide))]
        exact goodRec_of_status_eq hols _
          ("Paid Day Off (Public Holiday: " ++ desc ++ ")") rfl
          (holStr_ne desc "Absent" (by decide))
          (holStr_ne desc "Paid Day Off (Auto Granted)" (by decide))

/-- The per-day pass appends exactly one record per date, in order. -/
theorem phase1_breakdown_map (fspd rate : ℚ) (logs : Nat → Option LogEntry)
    (hols : Nat → Option String) (dates : List Nat) :
    ((phase1 fspd rate logs hols dates).breakdown).map DayRec.date = dates := by
  induction dates with
  | nil => rfl
  | cons r rest ih => simp [phase1, mkRec, ih]

/-- Every breakdown entry of the per-day pass satisfies the invariant. -/
theorem phase1_good (fspd rate : ℚ) (logs : Nat → Option LogEntry)
    (hols : Nat → Option String) (dates : List Nat) :
    ∀ x ∈ (phase1 fspd rate logs hols dates).breakdown, GoodRec hols x := by
  induction dates with
  | nil => intro x hx; simp [phase1] at hx
  | cons r rest ih =>
    intro x hx
    rcases List.mem_cons.mp hx with h | h
    · rw [h]; exact dayStep_good fspd rate logs hols r
    · exact ih x h

/-- The record of a date in the period is in the breakdown. -/
theorem phase1_mem_rec (fspd rate : ℚ) (logs : Nat → Option LogEntry)
    (hols : Nat → Option String) (dates : List Nat) (r : Nat) (hr : r ∈ dates) :
    mkRec (logs r) r (dayStep fspd rate logs hols r)
      ∈ (phase1 fspd rate logs hols dates).breakdown := by
  induction dates with
  | nil => cases hr
  | cons a rest ih =>
    rcases List.mem_cons.mp hr with h | h
    · rw [h]; exact List.mem_cons_self _ _
    · exact List.mem_cons_of_mem _ (ih h)

/-- The holiday-Saturday flag propagates from any day of the period. -/
theorem phase1_satHol (fspd rate : ℚ) (logs : Nat → Option LogEntry)
    (hols : Nat → Option String) (dates : List Nat) (r : Nat) (hr : r ∈ dates)
    (h : (dayStep fspd rate logs hols r).satHol = true) :
    (phase1 fspd rate logs hols dates).satHol = true := by
  induction dates with
  | nil => cases hr
  | cons a rest ih =>
    rcases List.mem_cons.mp hr with hh | hh
    · show ((dayStep fspd rate logs hols a).satHol
        || (phase1 fspd rate logs hols rest).satHol) = true
      rw [← hh, h]; rfl
    · show ((dayStep fspd rate logs hols a).satHol
        || (phase1 fspd rate logs hols rest).satHol) = true
      rw [ih hh, Bool.or_true]

/-! ## Grace-pass lemmas -/

/-- A grace candidate is an absent record. -/
theorem grCond_status (hols : Nat → Option String) (x : DayRec)
    (h : grCond hols x = true) : x.status = "Absent" := by
  simp only [grCond, Bool.and_eq_true, beq_iff_eq] at h
  exact h.1.1

/-- An absent record satisfying the breakdown invariant is a grace
candidate. -/
theorem grCond_of_good (hols : Nat → Option String) (x : DayRec)
    (hg : GoodRec hols x) (h : x.status = "Absent") : grCond hols x = true := by
  obtain ⟨h1, -⟩ := hg
  obtain ⟨hw, hh, -⟩ := h1 h
  simp [grCond, h, hw, hh]

/-- Without a candidate, the grace pass changes nothing. -/
theorem graceAdjust_id (fspd : ℚ) (hols : Nat → Option String)
    (l : List DayRec) (h : ∀ x ∈ l, grCond hols x = false) :
    graceAdjust fspd hols l = (l, false) := by
  induction l with
  | nil => rfl
  | cons x rest ih =>
    have hx := h x (List.mem_cons_self _ _)
    simp [graceAdjust, hx, ih (fun y hy => h y (List.mem_cons_of_mem _ hy))]

/-- With a candidate, the grace pass rewrites exactly the first one. -/
theorem graceAdjust_decomp (fspd : ℚ) (hols : Nat → Option String)
    (l : List DayRec) (hex : ∃ x ∈ l, grCond hols x = true) :
    ∃ pre d post, l = pre ++ d :: post ∧
      (∀ x ∈ pre, grCond hols x = false) ∧ grCond hols d = true ∧
      graceAdjust fspd hols l = (pre ++ grConv fspd d :: post, true) := by
  induction l with
  | nil => simp at hex
  | cons a rest ih =>
    by_cases ha : grCond hols a = true
    · exact ⟨[], a, rest, rfl, by simp, ha, by simp [graceAdjust, ha]⟩
    · have hb : grCond hols a = false := by
        revert ha; cases grCond hols a <;> simp
      have hex2 : ∃ x ∈ rest, grCond hols x = true := by
        rcases hex with ⟨x, hx, hcx⟩
        rcases List.mem_cons.mp hx with h2 | h2
        · exact absurd (h2 ▸ hcx) ha
        · exact ⟨x, h2, hcx⟩
      obtain ⟨pre, d, post, hsplit, hpre, hd, heq⟩ := ih hex2
      refine ⟨a :: pre, d, post, by simp [hsplit], ?_, hd, ?_⟩
      · intro x hx
        rcases List.mem_cons.mp hx with h2 | h2
        · rw [h2]; exact hb
        · exact hpre _ h2
      · simp [graceAdjust, hb, heq]

/-- The grace pass preserves the dates of the breakdown. -/
theorem graceAdjust_map_date (fspd : ℚ) (hols : Nat → Option String)
    (l : List DayRec) :
    ((graceAdjust fspd hols l).1).map DayRec.date = l.map DayRec.date := by
  induction l with
  | nil => rfl
  | cons x rest ih =>
    by_cases hx : grCond hols x = true
    · simp [graceAdjust, hx, grConv]
    · have hb : grCond hols x = false := by
        revert hx; cases grCond hols x <;> simp
      simp [graceAdjust, hb, ih]

/-- Non-absent records survive the grace pass untouched. -/
theorem graceAdjust_keep (fspd : ℚ) (hols : Nat → Option String)
    (l : List DayRec) (x : DayRec) (hx : x ∈ l) (hs : x.status ≠ "Absent") :
    x ∈ (graceAdjust fspd hols l).1 := by
  induction l with
  | nil => cases hx
  | cons a rest ih =>
    by_cases ha : grCond hols a = true
    · rcases List.mem_cons.mp hx with h2 | h2
      · exact absurd (h2 ▸ grCond_status hols a ha) hs
      · simp only [graceAdjust, if_pos ha]
        exact List.mem_cons_of_mem _ h2
    · rw [graceAdjust, if_neg ha]
      rcases List.mem_cons.mp hx with h2 | h2
      · rw [h2]; exact List.mem_cons_self _ _
      · exact List.mem_cons_of_mem _ (ih h2)

/-- After the grace pass, remaining absent records still contribute
zero. -/
theorem graceAdjust_absent_pay (fspd : ℚ) (hols : Nat → Option String)
    (l : List DayRec) (hg : ∀ x ∈ l, GoodRec hols x) :
    ∀ x ∈ (graceAdjust fspd hols l).1, x.status = "Absent" → x.pay = 0 := by
  induction l with
  | nil => intro x hx; simp [graceAdjust] at hx
  | cons a rest ih =>
    intro x hx hst
    by_cases ha : grCond hols a = true
    · rw [graceAdjust, if_pos ha] at hx
      rcases List.mem_cons.mp hx with h2 | h2
      · exact absurd (h2 ▸ hst) (by simp [grConv])
      · exact ((hg x (List.mem_cons_of_mem _ h2)).1 hst).2.2
    · rw [graceAdjust, if_neg ha] at hx
      rcases List.mem_cons.mp hx with h2 | h2
      · rw [h2]; exact ((hg a (List.mem_cons_self _ _)).1 (h2 ▸ hst)).2.2
      · exact ih (fun y hy => hg y (List.mem_cons_of_mem _ hy)) x h2 hst

/-- The grace pass produces exactly one auto-granted record when it
fires, and none otherwise. -/
theorem graceAdjust_auto_count (fspd : ℚ) (hols : Nat → Option String)
    (l : List DayRec) (hg : ∀ x ∈ l, GoodRec hols x) :
    List.countP (fun x => x.status == "Paid Day Off (Auto Granted)")
        (graceAdjust fspd hols l).1
      = if (graceAdjust fspd hols l).2 then 1 else 0 := by
  induction l with
  | nil => rfl
  | cons a rest ih =>
    have hrest : List.countP (fun x => x.status == "Paid Day Off (Auto Granted)") rest = 0 := by
      refine List.countP_eq_zero.mpr ?_
      intro x hx
      simp only [beq_iff_eq]
      exact (hg x (List.mem_cons_of_mem _ hx)).2
    by_cases ha : grCond hols a = true
    · rw [graceAdjust, if_pos ha]
      simp [List.countP_cons, grConv, hrest]
    · rw [graceAdjust, if_neg ha]
      have hna : ¬ a.status = "Paid Day Off (Auto Granted)" :=
        (hg a (List.mem_cons_self _ _)).2
      simp only [List.countP_cons, beq_iff_eq]
      rw [if_neg hna]
      simpa using ih (fun y hy => hg y (List.mem_cons_of_mem _ hy))

/-! ## Period-resolution lemmas -/

/-- With both roll-over days in `1..28`, period resolution always
succeeds and the resolved period is non-empty. -/
theorem resolver_some (st : Settings) (today : Date) (hv : today.Valid)
    (hs1 : 1 ≤ st.monthStartDay.getD 28) (hs2 : st.monthStartDay.getD 28 ≤ 28)
    (he1 : 1 ≤ st.monthEndDay.getD 27) (he2 : st.monthEndDay.getD 27 ≤ 28) :
    ∃ sd ed, get_start_end_dates_for_period st today = some (sd, ed) ∧
      sd.toR ≤ ed.toR := by
  obtain ⟨hy, hm1, hm2, hd1, hd2⟩ := hv
  unfold get_start_end_dates_for_period
  by_cases hc : st.monthStartDay.getD 28 ≤ today.d
  · rw [if_pos hc]
    have hnm : 1 ≤ (nextYM today.y today.m).2 ∧ (nextYM today.y today.m).2 ≤ 12 := by
      unfold nextYM; split_ifs <;> constructor <;> omega
    have hsd : mkDay today.y today.m (st.monthStartDay.getD 28)
        = some ⟨today.y, today.m, st.monthStartDay.getD 28⟩ := by
      unfold mkDay
      rw [if_pos ⟨hs1, le_trans hs2 (dim_ge_28 _ _ hm1 hm2)⟩]
    have hed : mkDay (nextYM today.y today.m).1 (nextYM today.y today.m).2
          (st.monthEndDay.getD 27)
        = some ⟨(nextYM today.y today.m).1, (nextYM today.y today.m).2,
            st.monthEndDay.getD 27⟩ := by
      unfold mkDay
      rw [if_pos ⟨he1, le_trans he2 (dim_ge_28 _ _ hnm.1 hnm.2)⟩]
    rw [hsd]
    dsimp only
    rw [hed]
    exact ⟨_, _, rfl,
      toRata_le_next today.y today.m _ _ hm1 hm2
        (le_trans hs2 (dim_ge_28 _ _ hm1 hm2))⟩
  · rw [if_neg hc]
    have hpm : 1 ≤ (prevYM today.y today.m).2 ∧ (prevYM today.y today.m).2 ≤ 12 := by
      unfold prevYM; split_ifs <;> constructor <;> omega
    have hed : mkDay today.y today.m (st.monthEndDay.getD 27)
        = some ⟨today.y, today.m, st.monthEndDay.getD 27⟩ := by
      unfold mkDay
      rw [if_pos ⟨he1, le_trans he2 (dim_ge_28 _ _ hm1 hm2)⟩]
    have hsd : mkDay (prevYM today.y today.m).1 (prevYM today.y today.m).2
          (st.monthStartDay.getD 28)
        = some ⟨(prevYM today.y today.m).1, (prevYM today.y today.m).2,
            st.monthStartDay.getD 28⟩ := by
      unfold mkDay
      rw [if_pos ⟨hs1, le_trans hs2 (dim_ge_28 _ _ hpm.1 hpm.2)⟩]
    rw [hed]
    dsimp only
    rw [hsd]
    refine ⟨_, _, rfl, ?_⟩
    have hle := toRata_le_next (prevYM today.y today.m).1 (prevYM today.y today.m).2
      (st.monthStartDay.getD 28) (st.monthEndDay.getD 27) hpm.1 hpm.2
      (le_trans hs2 (dim_ge_28 _ _ hpm.1 hpm.2))
    rw [next_prev today.y today.m hy hm1 hm2] at hle
    exact hle

/-- On the normal path the engine returns the assembled main report. -/
theorem calculate_eq_main (st : Settings) (logs : Nat → Option LogEntry)
    (hols : Nat → Option String) (today : Date) (sd ed : Date)
    (hres : get_start_end_dates_for_period st today = some (sd, ed))
    (hf : st.fixedMonthlySalary.getD 0 ≠ 0) (hr : st.hourlyRate.getD 0 ≠ 0) :
    calculate_monthly_salary st logs hols today
      = some (mainReport st logs hols sd ed) := by
  unfold calculate_monthly_salary
  rw [hres]
  dsimp only
  rw [if_neg (not_or.mpr ⟨hf, hr⟩)]

/-- On the zero-policy path the engine returns the short-circuit
report. -/
theorem calculate_eq_zero (st : Settings) (logs : Nat → Option LogEntry)
    (hols : Nat → Option String) (today : Date) (sd ed : Date)
    (hres : get_start_end_dates_for_period st today = some (sd, ed))
    (h : st.fixedMonthlySalary.getD 0 = 0 ∨ st.hourlyRate.getD 0 = 0) :
    calculate_monthly_salary st logs hols today = some (zeroReport sd ed) := by
  unfold calculate_monthly_salary
  rw [hres]
  dsimp only
  rw [if_pos h]

/-- Classification of a public holiday: full day's pay; status
according to the weekday, with Sunday taking precedence; the
holiday-Saturday flag on Saturdays. -/
theorem dayStep_holiday (fspd rate : ℚ) (logs : Nat → Option LogEntry)
    (hols : Nat → Option String) (r : Nat) (desc : String)
    (hh : hols r = some desc) :
    (dayStep fspd rate logs hols r).contrib = fspd ∧
    (dayStep fspd rate logs hols r).status =
      (if pyWeekday r = 6 then "Paid Day Off (Sunday)"
       else if pyWeekday r = 5 then "Holiday Saturday"
       else "Paid Day Off (Public Holiday: " ++ desc ++ ")") ∧
    (pyWeekday r = 5 → (dayStep fspd rate logs hols r).satHol = true) := by
  have hb : dayStep fspd rate logs hols r
      = workStep fspd rate (logs r)
          (holidayStep fspd (some desc) r (weekendStep fspd rate (logs r) r)) := by
    unfold dayStep; rw [hh]
  rw [hb]
  by_cases h6 : pyWeekday r = 6
  · have hw : weekendStep fspd rate (logs r) r
        = ⟨"Paid Day Off (Sunday)", fspd, false, "", false, false⟩ := by
      unfold weekendStep; rw [if_pos h6]
    have hskip : holidayStep fspd (some desc) r (weekendStep fspd rate (logs r) r)
        = weekendStep fspd rate (logs r) r := by
      simp [holidayStep, hw]
    rw [hskip, hw, workStep_skip fspd rate (logs r) _
      (show ¬ ("Paid Day Off (Sunday)" : String) = "Working Day" by decide)]
    refine ⟨rfl, ?_, fun h5 => absurd h6 (by rw [h5] at h6 ⊢; omega)⟩
    rw [if_pos h6]
  · have hnot : (weekendStep fspd rate (logs r) r).status ≠ "Paid Day Off (Sunday)" := by
      unfold weekendStep
      rw [if_neg h6]
      by_cases h5 : pyWeekday r = 5
      · rw [if_pos h5]
        cases logs r with
        | none =>
          exact show ¬ ("Unlogged Saturday (Pending Rule 2)" : String)
            = "Paid Day Off (Sunday)" by decide
        | some l =>
          by_cases hti : l.timeIn.isSome = true
          · simp only [hti, if_true]
            exact show ¬ ("Working Saturday" : String)
              = "Paid Day Off (Sunday)" by decide
          · simp only [hti, if_false]
            exact show ¬ ("Unlogged Saturday (Pending Rule 2)" : String)
              = "Paid Day Off (Sunday)" by decide
      · rw [if_neg h5]
        exact show ¬ ("Working Day" : String) = "Paid Day Off (Sunday)" by decide
    by_cases h5 : pyWeekday r = 5
    · have hhol : holidayStep fspd (some desc) r (weekendStep fspd rate (logs r) r)
          = { weekendStep fspd rate (logs r) r with
              status := "Holiday Saturday", contrib := fspd, satHol := true } := by
        simp [holidayStep, hnot, h5]
      rw [hhol, workStep_skip fspd rate (logs r) _
        (show ¬ ("Holiday Saturday" : String) = "Working Day" by decide)]
      refine ⟨rfl, ?_, fun _ => rfl⟩
      rw [if_neg h6, if_pos h5]
    · have hhol : holidayStep fspd (some desc) r (weekendStep fspd rate (logs r) r)
          = { weekendStep fspd rate (logs r) r with
              status := "Paid Day Off (Public Holiday: " ++ desc ++ ")",
              contrib := fspd } := by
        simp [holidayStep, hnot, h5]
      rw [hhol, workStep_skip fspd rate (logs r) _
        (holStr_ne desc "Working Day" (by decide))]
      refine ⟨rfl, ?_, fun h => absurd h h5⟩
      rw [if_neg h6, if_neg h5]

/-! ## Claim theorems -/

set_option maxRecDepth 8000 in
/-- C4 counterexample: in Scenario A (period 2025-07-28 to 2025-08-27,
every weekday logged at 09:00 except six dates at 10:30) the claim
expects a single late deduction `lateDeductionTotal = 2000`; the engine
deducts one day per three late instances, so with six late instances the
late deduction is `6 / 3 = 2` days, i.e. 4000, not 2000. -/
theorem c4_counterexample :
    ¬ ((calculate_monthly_salary stA logsA holsNone todayA).map
        (fun r => r.lateDeductionTotal) = some 2000) := by decide

set_option maxRecDepth 8000 in
/-- C4 amended: Scenario A produces `lateCount = 6` and a late
deduction of two days' pay, `lateDeductionTotal = 4000`. -/
theorem c4_amended :
    (calculate_monthly_salary stA logsA holsNone todayA).map
        (fun r => (r.lateCount, r.lateDeductionTotal))
      = some (6, 4000) := by decide

set_option maxRecDepth 8000 in
/-- C6 counterexample: the policy `stBad` has period days 28 and 31,
both within 1-31, yet with reference date 2025-03-29 the engine raises
(`none`): the resolved end day 31 does not exist in April. -/
theorem c6_counterexample :
    calculate_monthly_salary stBad logsNone holsNone todayBad = none ∧
    stBad.monthStartDay = some 28 ∧ stBad.monthEndDay = some 31 := by
  exact ⟨by decide, rfl, rfl⟩

/-- C6 amended: whenever both configured roll-over days lie in 1-28 (or
are absent, giving the defaults 28 and 27), `calculate_monthly_salary`
terminates normally and returns a report for every stored log and
holiday table and every valid reference date; for days 29-31 the
resolver can raise, as the C6 counterexample shows. -/
theorem c6_amended (st : Settings) (logs : Nat → Option LogEntry)
    (hols : Nat → Option String) (today : Date) (hv : today.Valid)
    (hs : ∀ s, st.monthStartDay = some s → 1 ≤ s ∧ s ≤ 28)
    (he : ∀ e, st.monthEndDay = some e → 1 ≤ e ∧ e ≤ 28) :
    (calculate_monthly_salary st logs hols today).isSome = true := by
  have hs1 : 1 ≤ st.monthStartDay.getD 28 ∧ st.monthStartDay.getD 28 ≤ 28 := by
    cases h : st.monthStartDay with
    | none => exact ⟨by decide, by decide⟩
    | some v => simpa using hs v h
  have he1 : 1 ≤ st.monthEndDay.getD 27 ∧ st.monthEndDay.getD 27 ≤ 28 := by
    cases h : st.monthEndDay with
    | none => exact ⟨by decide, by decide⟩
    | some v => simpa using he v h
  obtain ⟨sd, ed, hres, -⟩ := resolver_some st today hv hs1.1 hs1.2 he1.1 he1.2
  unfold calculate_monthly_salary
  rw [hres]
  dsimp only
  split_ifs <;> rfl

set_option maxRecDepth 8000 in
/-- Witness for C6 amended: the default policy on 2025-08-04 with empty
tables returns a report. -/
theorem c6_amended_witness :
    (calculate_monthly_salary stDflt logsNone holsNone todayA).isSome = true :=
  c6_amended stDflt logsNone holsNone todayA (by decide)
    (fun s h => Option.noConfusion h) (fun e h => Option.noConfusion h)

set_option maxRecDepth 8000 in
/-- C8 counterexample: with `fixedMonthlySalary = 0` but the same
out-of-range end day 31 and reference date 2025-03-29, the engine
raises before reaching the zero-policy check, instead of returning the
zero report the claim promises. -/
theorem c8_counterexample :
    calculate_monthly_salary stBadZero logsNone holsNone todayBad = none ∧
    stBadZero.fixedMonthlySalary = some 0 := ⟨by decide, rfl⟩

/-- C8 amended: whenever the period resolution succeeds and
`fixedMonthlySalary` or `hourlyRate` is zero, the engine does not throw
and returns a report with zero total salary, an empty breakdown, and
the configuration-missing summary. -/
theorem c8_amended (st : Settings) (logs : Nat → Option LogEntry)
    (hols : Nat → Option String) (today : Date) (sd ed : Date)
    (hres : get_start_end_dates_for_period st today = some (sd, ed))
    (h : st.fixedMonthlySalary.getD 0 = 0 ∨ st.hourlyRate.getD 0 = 0) :
    ∃ r, calculate_monthly_salary st logs hols today = some r ∧
      r.totalSalary = 0 ∧ r.details = [] ∧
      r.summary = "Please set Fixed Monthly Salary and Hourly Rate in settings." :=
  ⟨zeroReport sd ed, calculate_eq_zero st logs hols today sd ed hres h,
    rfl, rfl, rfl⟩

set_option maxRecDepth 8000 in
/-- Witness for C8 amended: the zero policy with default roll-over days
on 2025-08-04. -/
theorem c8_amended_witness :
    ∃ r, calculate_monthly_salary stZero logsNone holsNone todayA = some r ∧
      r.totalSalary = 0 ∧ r.details = [] ∧
      r.summary = "Please set Fixed Monthly Salary and Hourly Rate in settings." :=
  c8_amended stZero logsNone holsNone todayA ⟨2025, 7, 28⟩ ⟨2025, 8, 27⟩
    (by decide) (Or.inl rfl)

set_option maxRecDepth 8000 in
/-- C9 counterexample: the claim quantifies over every policy, but the
zero policy with default roll-over days returns an empty breakdown
although the resolved period 2025-07-28 to 2025-08-27 contains 31
dates. -/
theorem c9_counterexample :
    get_start_end_dates_for_period stZero todayA
        = some (⟨2025, 7, 28⟩, ⟨2025, 8, 27⟩) ∧
    (calculate_monthly_salary stZero logsNone holsNone todayA).map Report.details
        = some [] ∧
    (ratRange (Date.toR ⟨2025, 7, 28⟩) (Date.toR ⟨2025, 8, 27⟩)).length = 31 ∧
    (31 : Nat) ≠ 0 := by
  exact ⟨by decide, by decide, by decide, by decide⟩

/-- C9 amended: for every non-zero policy with the default roll-over
days and every valid reference date, the resolver succeeds with
`startDate ≤ endDate` and the report's breakdown has exactly one record
per date of the inclusive range, in ascending date order. -/
theorem c9_amended (st : Settings) (logs : Nat → Option LogEntry)
    (hols : Nat → Option String) (today : Date) (hv : today.Valid)
    (hsd : st.monthStartDay = none) (hed : st.monthEndDay = none)
    (hf : st.fixedMonthlySalary.getD 0 ≠ 0) (hr : st.hourlyRate.getD 0 ≠ 0) :
    ∃ sd ed r, get_start_end_dates_for_period st today = some (sd, ed) ∧
      sd.toR ≤ ed.toR ∧
      calculate_monthly_salary st logs hols today = some r ∧
      r.details.map DayRec.date = ratRange sd.toR ed.toR ∧
      (∀ x, x ∈ ratRange sd.toR ed.toR ↔ (sd.toR ≤ x ∧ x ≤ ed.toR)) := by
  obtain ⟨sd, ed, hres, hle⟩ := resolver_some st today hv
    (by rw [hsd]; decide) (by rw [hsd]; decide)
    (by rw [hed]; decide) (by rw [hed]; decide)
  refine ⟨sd, ed, mainReport st logs hols sd ed, hres, hle,
    calculate_eq_main st logs hols today sd ed hres hf hr, ?_,
    fun x => mem_ratRange _ _ x⟩
  show ((graceAdjust _ hols
      (phase1 _ _ logs hols (ratRange sd.toR ed.toR)).breakdown).1).map DayRec.date
    = ratRange sd.toR ed.toR
  rw [graceAdjust_map_date, phase1_breakdown_map]

set_option maxRecDepth 8000 in
/-- Witness for C9 amended: the default policy with the Scenario A
rates on 2025-08-04. -/
theorem c9_amended_witness :
    ∃ sd ed r, get_start_end_dates_for_period stDflt todayA = some (sd, ed) ∧
      sd.toR ≤ ed.toR ∧
      calculate_monthly_salary stDflt logsNone holsNone todayA = some r ∧
      r.details.map DayRec.date = ratRange sd.toR ed.toR ∧
      (∀ x, x ∈ ratRange sd.toR ed.toR ↔ (sd.toR ≤ x ∧ x ≤ ed.toR)) :=
  c9_amended stDflt logsNone holsNone todayA (by decide) rfl rfl
    (by decide) (by decide)

set_option maxRecDepth 8000 in
/-- C1 counterexample: in the two-day period 2025-01-31 to 2025-02-01
with no logs, the engine's total is -2000 (grace credit 2000 minus
Saturday deduction 4000 on a phase-1 sum of 0), while the claim's
formula `fixedMonthlySalary - absence deductions - late deduction -
Saturday deduction` gives `60000 - 0 - 0 - 4000 = 56000` (the single
absence was converted by the grace rule, so no absence deduction
remains). -/
theorem c1_counterexample :
    ((calculate_monthly_salary stTiny logsNone holsNone todayTiny).map
        (fun r => (r.totalSalary, r.lateDeductionTotal, r.saturdayDeduction,
          List.countP (fun x => x.status == "Absent") r.details))
      = some (-2000, 0, 4000, 0)) ∧
    ((-2000 : ℚ) ≠ 60000 - 0 * (60000 / 30) - 0 - 4000) := by
  exact ⟨by decide, by norm_num⟩

/-- C1 amended: for every run with a non-zero policy, the report's
`totalSalary` is the rounded value of: the sum of the daily
contributions, minus the late deduction, plus one `fixedSalaryPerDay`
when the grace day-off fired, minus the Saturday deduction when the
Saturday branch fired and plus one extra `fixedSalaryPerDay` when it
did not — with no flooring at zero (the C1 counterexample exhibits a
negative total). -/
theorem c1_amended (st : Settings) (logs : Nat → Option LogEntry)
    (hols : Nat → Option String) (today : Date) (sd ed : Date) (r : Report)
    (hres : get_start_end_dates_for_period st today = some (sd, ed))
    (hf : 0 < st.fixedMonthlySalary.getD 0) (hr : 0 < st.hourlyRate.getD 0)
    (hcalc : calculate_monthly_salary st logs hols today = some r) :
    r.totalSalary = round2 (
      (phase1 (qdiv (st.fixedMonthlySalary.getD 0) 30) (st.hourlyRate.getD 0)
        logs hols (ratRange sd.toR ed.toR)).total
      - r.lateDeductionTotal
      + (if r.graceApplied = true then st.fixedMonthlySalary.getD 0 / 30 else 0)
      + (if r.workedSaturdays < 2 ∧ r.saturdayHoliday = false ∧ r.graceApplied = true
         then -r.saturdayDeduction else st.fixedMonthlySalary.getD 0 / 30)) := by
  rw [calculate_eq_main st logs hols today sd ed hres (ne_of_gt hf) (ne_of_gt hr)]
    at hcalc
  obtain rfl := (Option.some.inj hcalc).symm
  simp only [mainReport]
  split_ifs with h1 h2 h3 <;>
    simp only [qadd_eq, qsub_eq, qmul_eq, qdiv_eq] <;>
    first
      | (exact absurd h2.2.2 h1)
      | (exact absurd h3.2.2 h1)
      | (congr 1; ring)

set_option maxRecDepth 8000 in
/-- Witness for C1 amended, at the two-day no-log run. -/
theorem c1_amended_witness :
    ∃ r, calculate_monthly_salary stTiny logsNone holsNone todayTiny = some r ∧
      r.totalSalary = round2 (
        (phase1 (qdiv (stTiny.fixedMonthlySalary.getD 0) 30)
          (stTiny.hourlyRate.getD 0) logsNone holsNone
          (ratRange (Date.toR ⟨2025, 1, 31⟩) (Date.toR ⟨2025, 2, 1⟩))).total
        - r.lateDeductionTotal
        + (if r.graceApplied = true then stTiny.fixedMonthlySalary.getD 0 / 30 else 0)
        + (if r.workedSaturdays < 2 ∧ r.saturdayHoliday = false ∧ r.graceApplied = true
           then -r.saturdayDeduction else stTiny.fixedMonthlySalary.getD 0 / 30)) :=
  ⟨_, rfl, c1_amended stTiny logsNone holsNone todayTiny ⟨2025, 1, 31⟩ ⟨2025, 2, 1⟩ _
    (by decide) (by norm_num [stTiny]) (by norm_num [stTiny]) rfl⟩

set_option maxRecDepth 8000 in
/-- C2 counterexample: a period with zero worked Saturdays, no holiday
Saturday and no absence (the single weekday is logged on time).  The
claim predicts a Saturday deduction of `(2 - 0 - 1)` days = 2000 (the
shortfall reduced by the unconsumed grace credit); the engine applies
no Saturday deduction at all because the deduction branch additionally
requires the grace day-off to have been consumed by an absence. -/
theorem c2_counterexample :
    ((calculate_monthly_salary stTiny logsFri holsNone todayTiny).map
        (fun r => (r.workedSaturdays, r.saturdayHoliday, r.graceApplied,
          r.saturdayDeduction)) = some (0, false, false, 0)) ∧
    ((0 : ℚ) ≠ (((2 - 0 - 1) : Nat) : ℚ) * (60000 / 30)) := by
  exact ⟨by decide, by norm_num⟩

/-- C2 amended: for every run with a non-zero policy the Saturday-quota
deduction equals the full shortfall `2 - workedSaturdays` times
`fixedSalaryPerDay` exactly when `workedSaturdays < 2`, no holiday
Saturday occurred, and the grace day-off was already consumed by an
absence; otherwise no Saturday deduction is applied (the claimed
shortfall reduction by an unconsumed grace credit does not exist, and
the grace day-off and the skip of the Saturday deduction can coincide). -/
theorem c2_amended (st : Settings) (logs : Nat → Option LogEntry)
    (hols : Nat → Option String) (today : Date) (sd ed : Date) (r : Report)
    (hres : get_start_end_dates_for_period st today = some (sd, ed))
    (hf : 0 < st.fixedMonthlySalary.getD 0) (hr : 0 < st.hourlyRate.getD 0)
    (hcalc : calculate_monthly_salary st logs hols today = some r) :
    r.saturdayDeduction =
      if r.workedSaturdays < 2 ∧ r.saturdayHoliday = false ∧ r.graceApplied = true
      then (((2 - r.workedSaturdays) : Nat) : ℚ) * (st.fixedMonthlySalary.getD 0 / 30)
      else 0 := by
  rw [calculate_eq_main st logs hols today sd ed hres (ne_of_gt hf) (ne_of_gt hr)]
    at hcalc
  obtain rfl := (Option.some.inj hcalc).symm
  simp only [mainReport]
  split_ifs with h1
  · rw [qmul_eq, qdiv_eq]
  · rfl

set_option maxRecDepth 8000 in
/-- Witness for C2 amended, at the no-absence one-log run. -/
theorem c2_amended_witness :
    ∃ r, calculate_monthly_salary stTiny logsFri holsNone todayTiny = some r ∧
      r.saturdayDeduction =
        if r.workedSaturdays < 2 ∧ r.saturdayHoliday = false ∧ r.graceApplied = true
        then (((2 - r.workedSaturdays) : Nat) : ℚ)
          * (stTiny.fixedMonthlySalary.getD 0 / 30)
        else 0 :=
  ⟨_, rfl, c2_amended stTiny logsFri holsNone todayTiny ⟨2025, 1, 31⟩ ⟨2025, 2, 1⟩ _
    (by decide) (by norm_num [stTiny]) (by norm_num [stTiny]) rfl⟩

/-- C10 confirmed: in every run with a non-zero policy in which the
Saturday-deduction branch does not fire, the aggregator adds one extra
`fixedSalaryPerDay` to the total beyond the sum of the daily
contributions (after the late deduction and the grace credit), and no
Saturday deduction is applied. -/
theorem c10_extra_day (st : Settings) (logs : Nat → Option LogEntry)
    (hols : Nat → Option String) (today : Date) (sd ed : Date) (r : Report)
    (hres : get_start_end_dates_for_period st today = some (sd, ed))
    (hf : 0 < st.fixedMonthlySalary.getD 0) (hr : 0 < st.hourlyRate.getD 0)
    (hcalc : calculate_monthly_salary st logs hols today = some r)
    (hnf : ¬ (r.workedSaturdays < 2 ∧ r.saturdayHoliday = false ∧
      r.graceApplied = true)) :
    r.saturdayDeduction = 0 ∧
    r.totalSalary = round2 (
      (phase1 (qdiv (st.fixedMonthlySalary.getD 0) 30) (st.hourlyRate.getD 0)
        logs hols (ratRange sd.toR ed.toR)).total
      - r.lateDeductionTotal
      + (if r.graceApplied = true then st.fixedMonthlySalary.getD 0 / 30 else 0)
      + st.fixedMonthlySalary.getD 0 / 30) := by
  rw [calculate_eq_main st logs hols today sd ed hres (ne_of_gt hf) (ne_of_gt hr)]
    at hcalc
  obtain rfl := (Option.some.inj hcalc).symm
  simp only [mainReport] at hnf ⊢
  constructor
  · rw [if_neg hnf]
  · rw [if_neg hnf]
    split_ifs with h1 <;>
      simp only [qadd_eq, qsub_eq, qmul_eq, qdiv_eq] <;> (congr 1; ring)

set_option maxRecDepth 8000 in
/-- Witness for C10, at Scenario A (quota unmet but grace never
consumed, so the branch does not fire). -/
theorem c10_extra_day_witness :
    ∃ r, calculate_monthly_salary stA logsA holsNone todayA = some r ∧
      (r.saturdayDeduction = 0 ∧
       r.totalSalary = round2 (
        (phase1 (qdiv (stA.fixedMonthlySalary.getD 0) 30) (stA.hourlyRate.getD 0)
          logsA holsNone
          (ratRange (Date.toR ⟨2025, 7, 28⟩) (Date.toR ⟨2025, 8, 27⟩))).total
        - r.lateDeductionTotal
        + (if r.graceApplied = true then stA.fixedMonthlySalary.getD 0 / 30 else 0)
        + stA.fixedMonthlySalary.getD 0 / 30)) :=
  ⟨_, rfl, c10_extra_day stA logsA holsNone todayA ⟨2025, 7, 28⟩ ⟨2025, 8, 27⟩ _
    (by decide) (by norm_num [stA]) (by norm_num [stA]) rfl (by decide)⟩

set_option maxRecDepth 8000 in
/-- C3 counterexample: in the period 2025-01-31 to 2025-02-02 with
holidays on Saturday 2025-02-01 (logged) and Sunday 2025-02-02, the
Sunday keeps status `"Paid Day Off (Sunday)"` (the holiday does not
take precedence over the Sunday rule), and the logged holiday Saturday
is still counted by the worked-Saturday counter (`workedSaturdays = 1`)
even though the `isHolidaySaturday` flag is set. -/
theorem c3_counterexample :
    ((calculate_monthly_salary stThree logsSat holsWknd todayTiny).map
        (fun r => (r.workedSaturdays, r.saturdayHoliday, r.details.map DayRec.status))
      = some (1, true, ["Paid Day Off (Auto Granted)", "Holiday Saturday",
          "Paid Day Off (Sunday)"])) ∧
    (holsWknd (Date.toR ⟨2025, 2, 2⟩)).isSome = true ∧
    pyWeekday (Date.toR ⟨2025, 2, 2⟩) = 6 ∧
    ("Paid Day Off (Sunday)" : String) ≠ "Paid Day Off (Holiday)" ∧
    (1 : Nat) ≠ 0 := by
  exact ⟨by decide, by decide, by decide, by decide, by decide⟩

/-- C3 amended: every public holiday in the period earns the full
(rounded) `fixedSalaryPerDay`; its status is the holiday status on
weekdays, `"Holiday Saturday"` on Saturdays (where the
holiday-Saturday flag is also set), but `"Paid Day Off (Sunday)"` on
Sundays — the Sunday rule, not the holiday rule, wins there; a logged
holiday Saturday still increments the worked-Saturday counter (see the
C3 counterexample). -/
theorem c3_amended (st : Settings) (logs : Nat → Option LogEntry)
    (hols : Nat → Option String) (today : Date) (sd ed : Date) (r : Report)
    (d : Nat) (desc : String)
    (hres : get_start_end_dates_for_period st today = some (sd, ed))
    (hf : 0 < st.fixedMonthlySalary.getD 0) (hr : 0 < st.hourlyRate.getD 0)
    (hcalc : calculate_monthly_salary st logs hols today = some r)
    (hd1 : sd.toR ≤ d) (hd2 : d ≤ ed.toR) (hhol : hols d = some desc) :
    (∃ rec ∈ r.details, rec.date = d ∧
      rec.pay = round2 (st.fixedMonthlySalary.getD 0 / 30) ∧
      rec.status = (if pyWeekday d = 6 then "Paid Day Off (Sunday)"
        else if pyWeekday d = 5 then "Holiday Saturday"
        else "Paid Day Off (Public Holiday: " ++ desc ++ ")")) ∧
    (pyWeekday d = 5 → r.saturdayHoliday = true) := by
  rw [calculate_eq_main st logs hols today sd ed hres (ne_of_gt hf) (ne_of_gt hr)]
    at hcalc
  obtain rfl := (Option.some.inj hcalc).symm
  have hmem : d ∈ ratRange sd.toR ed.toR := (mem_ratRange _ _ d).mpr ⟨hd1, hd2⟩
  obtain ⟨hcontrib, hstat, hsh⟩ := dayStep_holiday
    (qdiv (st.fixedMonthlySalary.getD 0) 30) (st.hourlyRate.getD 0)
    logs hols d desc hhol
  have hrec := phase1_mem_rec (qdiv (st.fixedMonthlySalary.getD 0) 30)
    (st.hourlyRate.getD 0) logs hols (ratRange sd.toR ed.toR) d hmem
  have hne : (mkRec (logs d) d (dayStep (qdiv (st.fixedMonthlySalary.getD 0) 30)
      (st.hourlyRate.getD 0) logs hols d)).status ≠ "Absent" := by
    show (dayStep (qdiv (st.fixedMonthlySalary.getD 0) 30)
      (st.hourlyRate.getD 0) logs hols d).status ≠ "Absent"
    rw [hstat]
    split_ifs
    · decide
    · decide
    · exact holStr_ne desc "Absent" (by decide)
  constructor
  · refine ⟨mkRec (logs d) d (dayStep (qdiv (st.fixedMonthlySalary.getD 0) 30)
      (st.hourlyRate.getD 0) logs hols d), ?_, rfl, ?_, hstat⟩
    · show _ ∈ (mainReport st logs hols sd ed).details
      simp only [mainReport]
      exact graceAdjust_keep _ _ _ _ hrec hne
    · show round2 (dayStep (qdiv (st.fixedMonthlySalary.getD 0) 30)
        (st.hourlyRate.getD 0) logs hols d).contrib
        = round2 (st.fixedMonthlySalary.getD 0 / 30)
      rw [hcontrib]
      exact congrArg round2 (qdiv_eq _ _)
  · intro h5
    show (mainReport st logs hols sd ed).saturdayHoliday = true
    simp only [mainReport]
    exact phase1_satHol _ _ logs hols _ d hmem (hsh h5)

set_option maxRecDepth 8000 in
/-- Witness for C3 amended, at the holiday Saturday 2025-02-01 of the
three-day run. -/
theorem c3_amended_witness :
    ∃ r, calculate_monthly_salary stThree logsSat holsWknd todayTiny = some r ∧
      ((∃ rec ∈ r.details, rec.date = Date.toR ⟨2025, 2, 1⟩ ∧
        rec.pay = round2 (stThree.fixedMonthlySalary.getD 0 / 30) ∧
        rec.status = (if pyWeekday (Date.toR ⟨2025, 2, 1⟩) = 6
          then "Paid Day Off (Sunday)"
          else if pyWeekday (Date.toR ⟨2025, 2, 1⟩) = 5 then "Holiday Saturday"
          else "Paid Day Off (Public Holiday: " ++ "H1" ++ ")")) ∧
      (pyWeekday (Date.toR ⟨2025, 2, 1⟩) = 5 → r.saturdayHoliday = true)) :=
  ⟨_, rfl, c3_amended stThree logsSat holsWknd todayTiny ⟨2025, 1, 31⟩ ⟨2025, 2, 2⟩ _
    (Date.toR ⟨2025, 2, 1⟩) "H1" (by decide) (by norm_num [stThree])
    (by norm_num [stThree]) rfl (by decide) (by decide) (by decide)⟩

/-- C7 confirmed: whenever the per-day pass produced at least one
absent weekday, the engine's grace pass fires: the first `"Absent"`
entry (in ascending date order) is converted to
`"Paid Day Off (Auto Granted)"` with a full (rounded)
`fixedSalaryPerDay` (`grConv`), exactly one such conversion is made,
and every remaining absent entry keeps a zero contribution (each
therefore lowers the total by one `fixedSalaryPerDay` against a fully
worked day). -/
theorem c7_grace (st : Settings) (logs : Nat → Option LogEntry)
    (hols : Nat → Option String) (today : Date) (sd ed : Date) (r : Report)
    (hres : get_start_end_dates_for_period st today = some (sd, ed))
    (hf : 0 < st.fixedMonthlySalary.getD 0) (hr : 0 < st.hourlyRate.getD 0)
    (hcalc : calculate_monthly_salary st logs hols today = some r)
    (habs : ∃ x ∈ (phase1 (qdiv (st.fixedMonthlySalary.getD 0) 30)
        (st.hourlyRate.getD 0) logs hols (ratRange sd.toR ed.toR)).breakdown,
      x.status = "Absent") :
    r.graceApplied = true ∧
    (∃ pre d post,
      (phase1 (qdiv (st.fixedMonthlySalary.getD 0) 30) (st.hourlyRate.getD 0)
        logs hols (ratRange sd.toR ed.toR)).breakdown = pre ++ d :: post ∧
      (∀ x ∈ pre, x.status ≠ "Absent") ∧ d.status = "Absent" ∧
      r.details = pre ++ grConv (qdiv (st.fixedMonthlySalary.getD 0) 30) d :: post) ∧
    List.countP (fun x => x.status == "Paid Day Off (Auto Granted)") r.details = 1 ∧
    (∀ x ∈ r.details, x.status = "Absent" → x.pay = 0) := by
  rw [calculate_eq_main st logs hols today sd ed hres (ne_of_gt hf) (ne_of_gt hr)]
    at hcalc
  obtain rfl := (Option.some.inj hcalc).symm
  have hg := phase1_good (qdiv (st.fixedMonthlySalary.getD 0) 30)
    (st.hourlyRate.getD 0) logs hols (ratRange sd.toR ed.toR)
  obtain ⟨x, hx, hxs⟩ := habs
  have hex : ∃ y ∈ (phase1 (qdiv (st.fixedMonthlySalary.getD 0) 30)
      (st.hourlyRate.getD 0) logs hols (ratRange sd.toR ed.toR)).breakdown,
      grCond hols y = true :=
    ⟨x, hx, grCond_of_good hols x (hg x hx) hxs⟩
  obtain ⟨pre, dd, post, hsplit, hpre, hd, heq⟩ :=
    graceAdjust_decomp (qdiv (st.fixedMonthlySalary.getD 0) 30) hols _ hex
  have hga2 : (graceAdjust (qdiv (st.fixedMonthlySalary.getD 0) 30) hols
      (phase1 (qdiv (st.fixedMonthlySalary.getD 0) 30) (st.hourlyRate.getD 0)
        logs hols (ratRange sd.toR ed.toR)).breakdown).2 = true := by
    rw [heq]
  have hga1 : (graceAdjust (qdiv (st.fixedMonthlySalary.getD 0) 30) hols
      (phase1 (qdiv (st.fixedMonthlySalary.getD 0) 30) (st.hourlyRate.getD 0)
        logs hols (ratRange sd.toR ed.toR)).breakdown).1
      = pre ++ grConv (qdiv (st.fixedMonthlySalary.getD 0) 30) dd :: post := by
    rw [heq]
  refine ⟨?_, ⟨pre, dd, post, hsplit, ?_, grCond_status hols dd hd, ?_⟩, ?_, ?_⟩
  · show (mainReport st logs hols sd ed).graceApplied = true
    simp only [mainReport]
    exact hga2
  · intro y hyp hyabs
    have hyin : y ∈ (phase1 (qdiv (st.fixedMonthlySalary.getD 0) 30)
        (st.hourlyRate.getD 0) logs hols (ratRange sd.toR ed.toR)).breakdown := by
      rw [hsplit]
      exact List.mem_append_left _ hyp
    have := grCond_of_good hols y (hg y hyin) hyabs
    rw [hpre y hyp] at this
    exact Bool.false_ne_true this
  · show (mainReport st logs hols sd ed).details = _
    simp only [mainReport]
    exact hga1
  · show List.countP _ (mainReport st logs hols sd ed).details = 1
    simp only [mainReport]
    rw [graceAdjust_auto_count _ hols _ hg, hga2]
    rfl
  · show ∀ x ∈ (mainReport st logs hols sd ed).details, _
    simp only [mainReport]
    exact graceAdjust_absent_pay _ hols _ hg

set_option maxRecDepth 8000 in
/-- Witness for C7, at the two-day no-log run (one absent Friday). -/
theorem c7_grace_witness :
    ∃ r, calculate_monthly_salary stTiny logsNone holsNone todayTiny = some r ∧
      (r.graceApplied = true ∧
      (∃ pre d post,
        (phase1 (qdiv (stTiny.fixedMonthlySalary.getD 0) 30)
          (stTiny.hourlyRate.getD 0) logsNone holsNone
          (ratRange (Date.toR ⟨2025, 1, 31⟩) (Date.toR ⟨2025, 2, 1⟩))).breakdown
          = pre ++ d :: post ∧
        (∀ x ∈ pre, x.status ≠ "Absent") ∧ d.status = "Absent" ∧
        r.details = pre ++ grConv (qdiv (stTiny.fixedMonthlySalary.getD 0) 30) d :: post) ∧
      List.countP (fun x => x.status == "Paid Day Off (Auto Granted)") r.details = 1 ∧
      (∀ x ∈ r.details, x.status = "Absent" → x.pay = 0)) := by
  refine ⟨_, rfl, ?_⟩
  exact c7_grace stTiny logsNone holsNone todayTiny ⟨2025, 1, 31⟩ ⟨2025, 2, 1⟩ _
    (by decide) (by norm_num [stTiny]) (by norm_num [stTiny]) rfl (by decide)

/-- C5 confirmed (spec-modelled): the month/year-selecting engine
variant accepts optional month/year arguments; when none is given the
returned report carries `totalSalaryUntilToday` — the Phase-1
contributions restricted to the dates of the period not after the
current date — together with the informational `grossSalary` figure. -/
theorem c5_full_report (st : Settings) (logs : Nat → Option LogEntry)
    (hols : Nat → Option String) (today : Date) (sd ed : Date) (fr : FullReport)
    (hres : get_start_end_dates_for_period st today = some (sd, ed))
    (hfull : calculate_monthly_salary_full st logs hols today none none = some fr) :
    fr.totalSalaryUntilToday
      = some (phase1 (qdiv (st.fixedMonthlySalary.getD 0) 30)
          (st.hourlyRate.getD 0) logs hols
          ((ratRange sd.toR ed.toR).filter (fun x => x ≤ today.toR))).total ∧
    fr.grossSalary
      = qsub (qmul (((ratRange sd.toR ed.toR).length : Nat) : ℚ)
            (qdiv (st.fixedMonthlySalary.getD 0) 30))
          (if (dim sd.y sd.m = 31 ∨ dim ed.y ed.m = 31) ∧ ed.toR < today.toR
           then qdiv (st.fixedMonthlySalary.getD 0) 30 else 0) := by
  unfold calculate_monthly_salary_full at hfull
  dsimp only at hfull
  rw [hres] at hfull
  cases hcalc : calculate_monthly_salary st logs hols today with
  | none =>
    rw [hcalc] at hfull
    exact absurd hfull (by simp)
  | some rr =>
    rw [hcalc] at hfull
    obtain rfl := (Option.some.inj hfull).symm
    exact ⟨rfl, rfl⟩

set_option maxRecDepth 8000 in
/-- Witness for C5, at Scenario A with no month/year given. -/
theorem c5_full_report_witness :
    ∃ fr, calculate_monthly_salary_full stA logsA holsNone todayA none none
        = some fr ∧
      (fr.totalSalaryUntilToday
        = some (phase1 (qdiv (stA.fixedMonthlySalary.getD 0) 30)
            (stA.hourlyRate.getD 0) logsA holsNone
            ((ratRange (Date.toR ⟨2025, 7, 28⟩) (Date.toR ⟨2025, 8, 27⟩)).filter
              (fun x => x ≤ todayA.toR))).total ∧
      fr.grossSalary
        = qsub (qmul
              (((ratRange (Date.toR ⟨2025, 7, 28⟩) (Date.toR ⟨2025, 8, 27⟩)).length
                : Nat) : ℚ)
              (qdiv (stA.fixedMonthlySalary.getD 0) 30))
            (if (dim (2025 : Nat) 7 = 31 ∨ dim (2025 : Nat) 8 = 31) ∧
                Date.toR ⟨2025, 8, 27⟩ < todayA.toR
             then qdiv (stA.fixedMonthlySalary.getD 0) 30 else 0)) := by
  refine ⟨_, rfl, ?_⟩
  exact c5_full_report stA logsA holsNone todayA ⟨2025, 7, 28⟩ ⟨2025, 8, 27⟩ _
    (by decide) rfl

end AttendanceLog
